import Mathlib

/-
  Verification development for the ConstrainPrompt repository.

  Shallow embedding of:
  - run_checker.run_generated_checker   (execution harness)
  - stage2_tree_generation.pretty_print_tree   (tree printer)
  - stage1_extraction.classify_prompt_constraints,
    filter_code_verifiable_constraints, filter_code_verifiable_conditionals
  - stage2_tree_generation.generate_evaluation_tree
  - stage3_code_generation.generate_checker_code
-/

namespace ConstrainPrompt

/-- Universe of Python values crossing the harness boundary.  The harness
only ever inspects tuple-ness, length, truthiness and passes values through
to the JSON verdict record, so this universe (None, bool, int, str, tuple,
list) covers every shape the harness distinguishes. -/
inductive PyVal where
  | none : PyVal
  | bool (b : Bool) : PyVal
  | int (n : Int) : PyVal
  | str (s : String) : PyVal
  | tuple (xs : List PyVal) : PyVal
  | list (xs : List PyVal) : PyVal

/-- Python truthiness, as used by `if passed:` in run_checker.py. -/
def PyVal.truthy : PyVal → Bool
  | .none => false
  | .bool b => b
  | .int n => n != 0
  | .str s => s != ""
  | .tuple xs => !xs.isEmpty
  | .list xs => !xs.isEmpty

/-- A callable bound in the checker module: invoked on two strings, it either
returns a Python value or raises (modelled as `Except.error` carrying the
exception text). -/
def PyFun : Type := String → String → Except String PyVal

/-- The bindings of a module namespace (`checker_module.__dict__`), restricted
to what the harness can observe: lookup of a callable by name. -/
structure ModuleCtx where
  find : String → Option PyFun

/-- The fresh module created by `types.ModuleType("checker_module")` on every
harness call: it contains no user bindings. -/
def freshModuleCtx : ModuleCtx := ⟨fun _ => Option.none⟩

/-- A validator source text, as the harness sees it: `exec`-ing it into a
module namespace either raises or yields the resulting namespace. -/
structure CheckerCode where
  exec : ModuleCtx → Except String ModuleCtx

/-- What one harness call prints and returns:
`verdict` is the JSON verdict record (an ordered list of key/value pairs,
mirroring the insertion order of the Python dict that is serialized),
`errorLog` is the "❌ Error during execution: ..." diagnostic line printed on
the exception path, and `ret` is the value returned to the caller. -/
structure HarnessResult where
  verdict : Option (List (String × PyVal))
  errorLog : Option String
  ret : PyVal

/-- Shallow embedding of run_checker.run_generated_checker.  Mirrors the
source line by line: fresh module, exec, entry-point lookup, invocation as
(output_text, input_text), tuple-shape check, verdict emission; every raise
inside the try block is caught and printed with the
"❌ Error during execution: " prelude, returning False. -/
def run_generated_checker (code : CheckerCode) (input_text output_text : String) :
    HarnessResult :=
  match code.exec freshModuleCtx with
  | .error e =>
      ⟨Option.none, some ("❌ Error during execution: " ++ e), .bool false⟩
  | .ok m =>
      match m.find "is_valid_output" with
      | Option.none =>
          ⟨Option.none,
           some ("❌ Error during execution: " ++
             "❌ Generated code does not contain `is_valid_output` function."),
           .bool false⟩
      | some f =>
          match f output_text input_text with
          | .error e =>
              ⟨Option.none, some ("❌ Error during execution: " ++ e), .bool false⟩
          | .ok result =>
              match result with
              | .tuple [passed, reason, violation] =>
                  if passed.truthy then
                    ⟨some [("satisfied", .bool true), ("reason", .none),
                           ("violation", .none)],
                     Option.none, passed⟩
                  else
                    ⟨some [("satisfied", .bool false), ("reason", reason),
                           ("violation", violation)],
                     Option.none, passed⟩
              | _ =>
                  ⟨Option.none,
                   some ("❌ Error during execution: " ++
                     "❌ `is_valid_output` must return a tuple: (bool, Optional[str], Optional[str])"),
                   .bool false⟩

/-- The shape test performed at line 14 of run_checker.py:
`isinstance(result, tuple) and len(result) == 3`. -/
def isTuple3 : PyVal → Bool
  | .tuple [_, _, _] => true
  | _ => false

/-- Diagnostic line printed when the entry point is missing. -/
def missingEntryMsg : String :=
  "❌ Error during execution: " ++
    "❌ Generated code does not contain `is_valid_output` function."

/-- Diagnostic line printed when the return value fails the tuple-shape check. -/
def malformedReturnMsg : String :=
  "❌ Error during execution: " ++
    "❌ `is_valid_output` must return a tuple: (bool, Optional[str], Optional[str])"

/-- The spec's notion of an "ordered 3-element sequence", read in the host
language (Python): tuples, lists and strings of length 3 are all ordered
3-element sequences.  Stated from the spec's words, for comparison with the
tuple-only check the source performs. -/
def specOrdered3Seq : PyVal → Prop
  | .tuple xs => xs.length = 3
  | .list xs => xs.length = 3
  | .str s => s.length = 3
  | _ => False

/-- C1: when the entry point returns a 3-tuple whose first element is the
Python bool True, the harness emits a satisfied verdict with reason and
violation both null whatever reason/violation were supplied; when the first
element is False, it emits an unsatisfied verdict carrying the returned
reason and violation verbatim. -/
theorem harness_maps_bool_triple_to_verdict
    (code : CheckerCode) (i o : String) (m : ModuleCtx) (f : PyFun)
    (b : Bool) (r v : PyVal)
    (h1 : code.exec freshModuleCtx = .ok m)
    (h2 : m.find "is_valid_output" = some f)
    (h3 : f o i = .ok (.tuple [.bool b, r, v])) :
    (b = true →
      (run_generated_checker code i o).verdict =
        some [("satisfied", .bool true), ("reason", .none), ("violation", .none)]) ∧
    (b = false →
      (run_generated_checker code i o).verdict =
        some [("satisfied", .bool false), ("reason", r), ("violation", v)]) := by
  unfold run_generated_checker
  rw [h1]
  simp only [h2, h3]
  cases b <;> simp [PyVal.truthy]

/-- C1 witness: the spec's own example, a validator returning
(False, "too short", "output must exceed 10 words"). -/
theorem harness_maps_bool_triple_to_verdict_witness :
    (run_generated_checker
      ⟨fun _ => .ok ⟨fun _ => some (fun _ _ =>
        .ok (.tuple [.bool false, .str "too short",
                     .str "output must exceed 10 words"]))⟩⟩
      "the input" "the output").verdict =
      some [("satisfied", .bool false), ("reason", .str "too short"),
            ("violation", .str "output must exceed 10 words")] := by
  exact (harness_maps_bool_triple_to_verdict
    ⟨fun _ => .ok ⟨fun _ => some (fun _ _ =>
      .ok (.tuple [.bool false, .str "too short",
                   .str "output must exceed 10 words"]))⟩⟩
    "the input" "the output"
    ⟨fun _ => some (fun _ _ =>
      .ok (.tuple [.bool false, .str "too short",
                   .str "output must exceed 10 words"]))⟩
    (fun _ _ => .ok (.tuple [.bool false, .str "too short",
                             .str "output must exceed 10 words"]))
    false (.str "too short") (.str "output must exceed 10 words")
    rfl rfl rfl).2 rfl

/-- C2 counterexample: a validator returning a 3-element Python list — an
ordered 3-element sequence in the spec's words — is not accepted: the
harness raises the "malformed contract" error and returns False, refuting
the claim that every ordered 3-element sequence passes the shape check. -/
theorem harness_rejects_three_element_list :
    specOrdered3Seq (.list [.bool true, .none, .none]) ∧
    run_generated_checker
      ⟨fun _ => .ok ⟨fun _ => some (fun _ _ =>
        .ok (.list [.bool true, .none, .none]))⟩⟩
      "the input" "the output" =
      ⟨Option.none, some malformedReturnMsg, .bool false⟩ := by
  constructor
  · simp [specOrdered3Seq]
  · rfl

/-- C2 amended: the harness accepts the return value exactly when it is a
3-element tuple; any other shape (3-element lists included) raises the
"malformed contract" error and yields a non-passing result. -/
theorem harness_accepts_exactly_tuple3
    (code : CheckerCode) (i o : String) (m : ModuleCtx) (f : PyFun)
    (r : PyVal)
    (h1 : code.exec freshModuleCtx = .ok m)
    (h2 : m.find "is_valid_output" = some f)
    (h3 : f o i = .ok r) :
    (isTuple3 r = true →
      (run_generated_checker code i o).errorLog = Option.none ∧
      (run_generated_checker code i o).verdict.isSome = true) ∧
    (isTuple3 r = false →
      run_generated_checker code i o =
        ⟨Option.none, some malformedReturnMsg, .bool false⟩) := by
  unfold run_generated_checker
  rw [h1]
  simp only [h2, h3]
  match r with
  | .none | .bool _ | .int _ | .str _ | .list _ =>
      simp [isTuple3, malformedReturnMsg]
  | .tuple [] | .tuple [_] | .tuple [_, _] =>
      simp [isTuple3, malformedReturnMsg]
  | .tuple [p, q, w] =>
      constructor
      · intro _
        by_cases hp : p.truthy = true
        · simp [hp]
        · simp [Bool.not_eq_true] at hp
          simp [hp]
      · intro hcon
        simp [isTuple3] at hcon
  | .tuple (_ :: _ :: _ :: _ :: _) =>
      simp [isTuple3, malformedReturnMsg]

/-- C2 amended witness: a validator returning a correct 3-tuple is accepted
with no harness error and an emitted verdict. -/
theorem harness_accepts_exactly_tuple3_witness :
    (run_generated_checker
      ⟨fun _ => .ok ⟨fun _ => some (fun _ _ =>
        .ok (.tuple [.bool true, .none, .none]))⟩⟩
      "the input" "the output").errorLog = Option.none ∧
    (run_generated_checker
      ⟨fun _ => .ok ⟨fun _ => some (fun _ _ =>
        .ok (.tuple [.bool true, .none, .none]))⟩⟩
      "the input" "the output").verdict.isSome = true := by
  exact (harness_accepts_exactly_tuple3
    ⟨fun _ => .ok ⟨fun _ => some (fun _ _ =>
      .ok (.tuple [.bool true, .none, .none]))⟩⟩
    "the input" "the output"
    ⟨fun _ => some (fun _ _ => .ok (.tuple [.bool true, .none, .none]))⟩
    (fun _ _ => .ok (.tuple [.bool true, .none, .none]))
    (.tuple [.bool true, .none, .none])
    rfl rfl rfl).1 rfl

/-- C3: if loading succeeds but the module does not bind the fixed name
is_valid_output, the harness reports the missing-contract error, emits no
verdict record, and returns a non-passing False — as an ordinary result, not
an escaping fault. -/
theorem harness_missing_entry_point_error
    (code : CheckerCode) (i o : String) (m : ModuleCtx)
    (h1 : code.exec freshModuleCtx = .ok m)
    (h2 : m.find "is_valid_output" = Option.none) :
    run_generated_checker code i o =
      ⟨Option.none, some missingEntryMsg, .bool false⟩ := by
  unfold run_generated_checker
  rw [h1]
  simp only [h2, missingEntryMsg]

/-- C3 witness: a validator source defining nothing. -/
theorem harness_missing_entry_point_error_witness :
    run_generated_checker ⟨fun ctx => .ok ctx⟩ "the input" "the output" =
      ⟨Option.none, some missingEntryMsg, .bool false⟩ :=
  harness_missing_entry_point_error
    ⟨fun ctx => .ok ctx⟩ "the input" "the output" freshModuleCtx rfl rfl

/-- C4: the harness invokes the entry point as (output, input) in that
order, and any fault raised while loading the source or invoking the entry
point is captured as a harness-level error line: the result is the ordinary
record with no verdict and a False return, never a propagated fault and
never a validation verdict carrying reason/violation. -/
theorem harness_invocation_order_and_fault_capture
    (code : CheckerCode) (i o : String) :
    (∀ e, code.exec freshModuleCtx = .error e →
      run_generated_checker code i o =
        ⟨Option.none, some ("❌ Error during execution: " ++ e), .bool false⟩) ∧
    (∀ m f e, code.exec freshModuleCtx = .ok m →
      m.find "is_valid_output" = some f →
      f o i = .error e →
      run_generated_checker code i o =
        ⟨Option.none, some ("❌ Error during execution: " ++ e), .bool false⟩) := by
  constructor
  · intro e h1
    unfold run_generated_checker
    rw [h1]
  · intro m f e h1 h2 h3
    unfold run_generated_checker
    rw [h1]
    simp only [h2, h3]

/-- C4 witness: a validator whose entry point raises when called with
("the output", "the input") — in that order — is captured as a harness
error with no verdict. -/
theorem harness_invocation_order_and_fault_capture_witness :
    run_generated_checker
      ⟨fun _ => .ok ⟨fun _ => some (fun outArg inArg =>
        if outArg = "the output" && inArg = "the input" then
          .error "boom" else .ok (.tuple [.bool true, .none, .none]))⟩⟩
      "the input" "the output" =
      ⟨Option.none, some ("❌ Error during execution: " ++ "boom"), .bool false⟩ := by
  exact (harness_invocation_order_and_fault_capture
    ⟨fun _ => .ok ⟨fun _ => some (fun outArg inArg =>
      if outArg = "the output" && inArg = "the input" then
        .error "boom" else .ok (.tuple [.bool true, .none, .none]))⟩⟩
    "the input" "the output").2
    ⟨fun _ => some (fun outArg inArg =>
      if outArg = "the output" && inArg = "the input" then
        .error "boom" else .ok (.tuple [.bool true, .none, .none]))⟩
    (fun outArg inArg =>
      if outArg = "the output" && inArg = "the input" then
        .error "boom" else .ok (.tuple [.bool true, .none, .none]))
    "boom" rfl rfl rfl

/-- C5: every successful invocation (entry point found, call returns a
3-tuple) emits exactly one verdict record, with its keys in the fixed order
satisfied, reason, violation; the value returned to the caller is the
tuple's first element, whose truthiness equals the verdict's satisfied
field. -/
theorem harness_single_verdict_record_and_return
    (code : CheckerCode) (i o : String) (m : ModuleCtx) (f : PyFun)
    (p r v : PyVal)
    (h1 : code.exec freshModuleCtx = .ok m)
    (h2 : m.find "is_valid_output" = some f)
    (h3 : f o i = .ok (.tuple [p, r, v])) :
    ∃ s rr vv,
      (run_generated_checker code i o).verdict =
        some [("satisfied", .bool s), ("reason", rr), ("violation", vv)] ∧
      (run_generated_checker code i o).errorLog = Option.none ∧
      (run_generated_checker code i o).ret = p ∧
      p.truthy = s := by
  unfold run_generated_checker
  rw [h1]
  simp only [h2, h3]
  by_cases hp : p.truthy = true
  · exact ⟨true, .none, .none, by simp [hp]⟩
  · simp [Bool.not_eq_true] at hp
    exact ⟨false, r, v, by simp [hp]⟩

/-- C5 witness: a truthy non-bool first element — a satisfied verdict is
emitted and the raw first element is returned, with matching truthiness. -/
theorem harness_single_verdict_record_and_return_witness :
    ∃ s rr vv,
      (run_generated_checker
        ⟨fun _ => .ok ⟨fun _ => some (fun _ _ =>
          .ok (.tuple [.int 2, .none, .none]))⟩⟩
        "the input" "the output").verdict =
        some [("satisfied", .bool s), ("reason", rr), ("violation", vv)] ∧
      (run_generated_checker
        ⟨fun _ => .ok ⟨fun _ => some (fun _ _ =>
          .ok (.tuple [.int 2, .none, .none]))⟩⟩
        "the input" "the output").errorLog = Option.none ∧
      (run_generated_checker
        ⟨fun _ => .ok ⟨fun _ => some (fun _ _ =>
          .ok (.tuple [.int 2, .none, .none]))⟩⟩
        "the input" "the output").ret = .int 2 ∧
      PyVal.truthy (.int 2) = s :=
  harness_single_verdict_record_and_return
    ⟨fun _ => .ok ⟨fun _ => some (fun _ _ =>
      .ok (.tuple [.int 2, .none, .none]))⟩⟩
    "the input" "the output"
    ⟨fun _ => some (fun _ _ => .ok (.tuple [.int 2, .none, .none]))⟩
    (fun _ _ => .ok (.tuple [.int 2, .none, .none]))
    (.int 2) .none .none rfl rfl rfl

/-- Interpreter-global state shared by every call made in one Python
process: attributes settable by exec-ed validator code on modules such as
sys, modelled as a store of named Python values.  run_generated_checker
does nothing to reset or shield this store between calls — line 7 only
freshens the module namespace — so exec-ed code can reach it. -/
def GlobalState : Type := List (String × PyVal)

/-- Read an attribute of the shared interpreter state. -/
def getAttr (g : GlobalState) (name : String) : Option PyVal :=
  (g.find? (fun kv => kv.1 == name)).map (fun kv => kv.2)

/-- Write an attribute of the shared interpreter state. -/
def setAttr (g : GlobalState) (name : String) (v : PyVal) : GlobalState :=
  (name, v) :: g

/-- A callable that, like real exec-ed Python, may read and mutate the
shared interpreter state when invoked, besides returning or raising. -/
def StatefulPyFun : Type :=
  GlobalState → String → String → GlobalState × Except String PyVal

/-- A module namespace whose bindings are stateful callables. -/
structure StatefulModuleCtx where
  find : String → Option StatefulPyFun

/-- The fresh module namespace of line 7, with no user bindings. -/
def freshStatefulModuleCtx : StatefulModuleCtx := ⟨fun _ => Option.none⟩

/-- A validator source as exec sees it: run against the current interpreter
state and a module namespace, it mutates the state and either raises or
yields the populated namespace.  State mutations made before a raise
persist, as in Python. -/
structure StatefulCheckerCode where
  exec : GlobalState → StatefulModuleCtx →
    GlobalState × Except String StatefulModuleCtx

/-- run_checker.run_generated_checker with the interpreter-global state it
implicitly threads made explicit: the same control flow as
run_generated_checker (fresh module namespace, exec, lookup, invocation as
(output_text, input_text), tuple-shape check, verdict mapping, every raise
caught), but exec and the entry point run against the shared state, which
the harness neither resets nor shields. -/
def run_generated_checker_st (g : GlobalState) (code : StatefulCheckerCode)
    (input_text output_text : String) : GlobalState × HarnessResult :=
  match code.exec g freshStatefulModuleCtx with
  | (g1, .error e) =>
      (g1, ⟨Option.none, some ("❌ Error during execution: " ++ e), .bool false⟩)
  | (g1, .ok m) =>
      match m.find "is_valid_output" with
      | Option.none =>
          (g1, ⟨Option.none,
            some ("❌ Error during execution: " ++
              "❌ Generated code does not contain `is_valid_output` function."),
            .bool false⟩)
      | some f =>
          match f g1 output_text input_text with
          | (g2, .error e) =>
              (g2, ⟨Option.none, some ("❌ Error during execution: " ++ e),
                .bool false⟩)
          | (g2, .ok result) =>
              match result with
              | .tuple [passed, reason, violation] =>
                  if passed.truthy then
                    (g2, ⟨some [("satisfied", .bool true), ("reason", .none),
                           ("violation", .none)],
                      Option.none, passed⟩)
                  else
                    (g2, ⟨some [("satisfied", .bool false), ("reason", reason),
                           ("violation", violation)],
                      Option.none, passed⟩)
              | _ =>
                  (g2, ⟨Option.none,
                    some ("❌ Error during execution: " ++
                      "❌ `is_valid_output` must return a tuple: (bool, Optional[str], Optional[str])"),
                    .bool false⟩)

/-- A sequence of harness calls in one process: each call is
run_generated_checker_st, and the interpreter state it leaves is the state
the next call starts from — as in Python, where nothing in
run_generated_checker resets the interpreter between calls. -/
def runBatchSt : GlobalState → List (StatefulCheckerCode × String × String) →
    GlobalState × List HarnessResult
  | g, [] => (g, [])
  | g, (c, i, o) :: rest =>
      ((runBatchSt (run_generated_checker_st g c i o).1 rest).1,
       (run_generated_checker_st g c i o).2 ::
         (runBatchSt (run_generated_checker_st g c i o).1 rest).2)

/-- Lift a callable that never touches interpreter-global state. -/
def liftFun (f : PyFun) : StatefulPyFun := fun g o i => (g, f o i)

/-- Lift a module namespace whose bindings never touch interpreter-global
state. -/
def liftCtx (m : ModuleCtx) : StatefulModuleCtx :=
  ⟨fun n => Option.map liftFun (m.find n)⟩

/-- A namespace-confined validator: its loading and its entry point neither
read nor mutate interpreter-global state, acting only through the fresh
module namespace the harness hands it. -/
def liftPure (code : CheckerCode) : StatefulCheckerCode :=
  ⟨fun g _ => (g, Except.map liftCtx (code.exec freshModuleCtx))⟩

/-- The validator source the counterexample runs: at load time it imports
sys and runs sys._n = getattr(sys, "_n", 0) + 1, and its entry point
def is_valid_output(o, i): return (sys._n == 1, None, None) reads the
shared attribute at call time. -/
def sysCounterCode : StatefulCheckerCode :=
  ⟨fun g _ =>
    (setAttr g "sys._n"
      (.int ((match getAttr g "sys._n" with
              | some (.int k) => k
              | _ => 0) + 1)),
     .ok ⟨fun name =>
       if name = "is_valid_output" then
         some (fun g2 _ _ =>
           (g2, .ok (.tuple
             [.bool ((match getAttr g2 "sys._n" with
                      | some (.int k) => k
                      | _ => 0) == 1), .none, .none])))
       else Option.none⟩)⟩

/-- Two consecutive harness calls on the identical triple, starting from a
fresh interpreter. -/
def sysLeakCalls : List (StatefulCheckerCode × String × String) :=
  [(sysCounterCode, "the input", "the output"),
   (sysCounterCode, "the input", "the output")]

theorem runBatchSt_append (xs ys : List (StatefulCheckerCode × String × String))
    (g : GlobalState) :
    runBatchSt g (xs ++ ys) =
      ((runBatchSt (runBatchSt g xs).1 ys).1,
       (runBatchSt g xs).2 ++ (runBatchSt (runBatchSt g xs).1 ys).2) := by
  induction xs generalizing g with
  | nil => simp [runBatchSt]
  | cons hd tl ih =>
      obtain ⟨c, i, o⟩ := hd
      simp [runBatchSt, ih]

theorem lift_run_eq (g : GlobalState) (c : CheckerCode) (i o : String) :
    run_generated_checker_st g (liftPure c) i o =
      (g, run_generated_checker c i o) := by
  unfold run_generated_checker_st run_generated_checker liftPure
  cases hc : c.exec freshModuleCtx with
  | error e => simp [Except.map]
  | ok m =>
      simp only [Except.map]
      cases hf : m.find "is_valid_output" with
      | none => simp [liftCtx, hf]
      | some f =>
          simp only [liftCtx, hf, Option.map_some']
          cases hr : f o i with
          | error e => simp [liftFun, hr]
          | ok result =>
              simp only [liftFun, hr]
              match result with
              | .none | .bool _ | .int _ | .str _ | .list _ => rfl
              | .tuple [] | .tuple [_] | .tuple [_, _] => rfl
              | .tuple (_ :: _ :: _ :: _ :: _) => rfl
              | .tuple [p, r, v] =>
                  by_cases hp : p.truthy = true
                  · simp [hp]
                  · simp [Bool.not_eq_true] at hp
                    simp [hp]

/-- C6 counterexample: the harness does not make its result a pure function
of the (validator, input, output) triple, and bindings created by one call
are visible to later calls.  The validator sysCounterCode — plain Python
the harness accepts — increments an attribute on the shared sys module at
load time; run twice on the identical triple in one process, the first call
verdicts satisfied and returns True while the second verdicts unsatisfied
and returns False, because the second call sees the attribute the first
call created. -/
theorem harness_cross_call_state_leak :
    (runBatchSt [] sysLeakCalls).2.head? =
      some ⟨some [("satisfied", .bool true), ("reason", .none),
             ("violation", .none)], Option.none, .bool true⟩ ∧
    (runBatchSt [] sysLeakCalls).2.getLast? =
      some ⟨some [("satisfied", .bool false), ("reason", .none),
             ("violation", .none)], Option.none, .bool false⟩ ∧
    (runBatchSt [] sysLeakCalls).2.head? ≠
      (runBatchSt [] sysLeakCalls).2.getLast? := by
  refine ⟨rfl, rfl, fun h => ?_⟩
  have h2 : ((runBatchSt [] sysLeakCalls).2.head?).map
        (fun r => r.ret.truthy) =
      ((runBatchSt [] sysLeakCalls).2.getLast?).map
        (fun r => r.ret.truthy) := by
    rw [h]
  have h3 : (some true : Option Bool) = some false := h2
  exact absurd h3 (by decide)

/-- C6 amended: each call does create a fresh module namespace, but the
harness does not isolate interpreter-global state, so isolation and
determinism hold exactly for namespace-confined validators: a validator
whose loading and entry point neither read nor mutate interpreter-global
state leaves the interpreter state unchanged and produces the pure
run_generated_checker result of its triple — and it does so as the last
call of any batch, whatever the prior calls did to the interpreter state
and whatever state the batch started in. -/
theorem harness_isolation_for_pure_validators
    (g : GlobalState) (prior : List (StatefulCheckerCode × String × String))
    (c : CheckerCode) (i o : String) :
    run_generated_checker_st g (liftPure c) i o =
      (g, run_generated_checker c i o) ∧
    ((runBatchSt g (prior ++ [(liftPure c, i, o)])).2).getLast? =
      some (run_generated_checker c i o) := by
  refine ⟨lift_run_eq g c i o, ?_⟩
  rw [runBatchSt_append]
  have h1 : (runBatchSt (runBatchSt g prior).1 [(liftPure c, i, o)]).2 =
      [run_generated_checker c i o] := by
    simp [runBatchSt, lift_run_eq]
  rw [h1]
  simp

/-- A constraint record produced by the extraction oracle; every field is
read with dict .get in the source, so each is optional. -/
structure Constraint where
  constraint : Option String
  application_type : Option String
  category : Option String
  reason : Option String
  source : Option String
deriving DecidableEq, Repr

/-- Shallow embedding of stage1_extraction.classify_prompt_constraints.
The whole oracle interaction (chat call plus json parsing of the tool-call
arguments) is one fallible step; `.ok` carries the parsed arguments'
optional "constraints" field, read with .get("constraints", []); any raise
inside the try block yields the empty list. -/
def classify_prompt_constraints
    (oracle : Except String (Option (List Constraint))) : List Constraint :=
  match oracle with
  | .ok (some cs) => cs
  | .ok Option.none => []
  | .error _ => []

/-- Result of stage2_tree_generation.generate_evaluation_tree: either the
tree object taken from arguments["tree"], or the empty dict returned by the
except branch. -/
inductive Stage2Result (α : Type) where
  | emptyDict : Stage2Result α
  | tree (t : α) : Stage2Result α
deriving DecidableEq, Repr

/-- Shallow embedding of stage2_tree_generation.generate_evaluation_tree.
`.ok (some t)` is a response whose arguments carry a "tree" field; `.ok
Option.none` is a response without it (the KeyError raised by
arguments["tree"] is caught by the same except branch); `.error` is any
other raise inside the try block.  Both failure shapes yield the empty
dict. -/
def generate_evaluation_tree {α : Type}
    (oracle : Except String (Option α)) : Stage2Result α :=
  match oracle with
  | .ok (some t) => .tree t
  | .ok Option.none => .emptyDict
  | .error _ => .emptyDict

/-- Shallow embedding of stage3_code_generation.generate_checker_code.
`.ok (some code)` carries arguments["code"]; a missing field raises and is
caught, as is any other raise, both returning the empty string. -/
def generate_checker_code
    (oracle : Except String (Option String)) : String :=
  match oracle with
  | .ok (some code) => code
  | .ok Option.none => ""
  | .error _ => ""

/-- C8: any oracle-call failure makes the corresponding core function
return its empty result — empty constraint list, empty tree dict, empty
source text — instead of propagating the raise; the same holds when the
oracle response lacks the expected field. -/
theorem oracle_failure_yields_empty_results (e : String) :
    classify_prompt_constraints (.error e) = [] ∧
    @generate_evaluation_tree PyVal (.error e) = .emptyDict ∧
    generate_checker_code (.error e) = "" ∧
    classify_prompt_constraints (.ok Option.none) = [] ∧
    @generate_evaluation_tree PyVal (.ok Option.none) = .emptyDict ∧
    generate_checker_code (.ok Option.none) = "" :=
  ⟨rfl, rfl, rfl, rfl, rfl, rfl⟩

/-- The four code-verifiable categories (stage1_extraction.py). -/
def code_verifiable_categories : List String :=
  ["Output → Specific format constraint",
   "Output → Numerical constraint",
   "Output → Lexical matching constraint",
   "Output → Lexical exclusion constraint"]

/-- Shallow embedding of stage1_extraction.filter_code_verifiable_constraints:
keep records whose "category" value is one of the four code-verifiable
categories (a missing category is never a member). -/
def filter_code_verifiable_constraints (cs : List Constraint) : List Constraint :=
  cs.filter (fun c =>
    match c.category with
    | some cat => code_verifiable_categories.contains cat
    | Option.none => false)

/-- Shallow embedding of stage1_extraction.filter_code_verifiable_conditionals.
`assess` stands for the oracle call assess_single_conditional_bool applied
to (constraint text, source text) with the ambient prompt and model fixed;
records that are neither "unconditional" nor "conditional" fall through
both branches and are dropped. -/
def filter_code_verifiable_conditionals
    (assess : String → String → Bool) : List Constraint → List Constraint
  | [] => []
  | c :: rest =>
      if c.application_type = some "unconditional" then
        c :: filter_code_verifiable_conditionals assess rest
      else if c.application_type = some "conditional" then
        if assess (c.constraint.getD "") (c.source.getD "") then
          c :: filter_code_verifiable_conditionals assess rest
        else
          filter_code_verifiable_conditionals assess rest
      else
        filter_code_verifiable_conditionals assess rest

/-- The stage-1 pipeline as run by stage1_extraction.main: category filter,
then conditional filter. -/
def stage1_filtered (assess : String → String → Bool)
    (cs : List Constraint) : List Constraint :=
  filter_code_verifiable_conditionals assess (filter_code_verifiable_constraints cs)

theorem filter_conditionals_sublist (assess : String → String → Bool)
    (cs : List Constraint) :
    (filter_code_verifiable_conditionals assess cs).Sublist cs := by
  induction cs with
  | nil => simp [filter_code_verifiable_conditionals]
  | cons c rest ih =>
      unfold filter_code_verifiable_conditionals
      by_cases hu : c.application_type = some "unconditional"
      · rw [if_pos hu]
        exact ih.cons₂ c
      · rw [if_neg hu]
        by_cases hc : c.application_type = some "conditional"
        · rw [if_pos hc]
          by_cases ha : assess (c.constraint.getD "") (c.source.getD "") = true
          · rw [if_pos ha]
            exact ih.cons₂ c
          · rw [if_neg ha]
            exact ih.cons c
        · rw [if_neg hc]
          exact ih.cons c

theorem filter_conditionals_mem_app_type (assess : String → String → Bool)
    (cs : List Constraint) (c : Constraint)
    (hmem : c ∈ filter_code_verifiable_conditionals assess cs) :
    c.application_type = some "unconditional" ∨
    c.application_type = some "conditional" := by
  induction cs with
  | nil => simp [filter_code_verifiable_conditionals] at hmem
  | cons d rest ih =>
      unfold filter_code_verifiable_conditionals at hmem
      by_cases hu : d.application_type = some "unconditional"
      · rw [if_pos hu] at hmem
        rcases List.mem_cons.mp hmem with hceq | hmem
        · subst hceq; exact Or.inl hu
        · exact ih hmem
      · rw [if_neg hu] at hmem
        by_cases hc : d.application_type = some "conditional"
        · rw [if_pos hc] at hmem
          by_cases ha : assess (d.constraint.getD "") (d.source.getD "") = true
          · rw [if_pos ha] at hmem
            rcases List.mem_cons.mp hmem with hceq | hmem
            · subst hceq; exact Or.inr hc
            · exact ih hmem
          · rw [if_neg ha] at hmem
            exact ih hmem
        · rw [if_neg hc] at hmem
          exact ih hmem

theorem filter_conditionals_keeps_unconditional (assess : String → String → Bool)
    (cs : List Constraint) (c : Constraint)
    (hmem : c ∈ cs) (hu : c.application_type = some "unconditional") :
    c ∈ filter_code_verifiable_conditionals assess cs := by
  induction cs with
  | nil => simp at hmem
  | cons d rest ih =>
      unfold filter_code_verifiable_conditionals
      rcases List.mem_cons.mp hmem with hceq | hmem
      · subst hceq
        rw [if_pos hu]
        exact List.mem_cons_self c _
      · by_cases hdu : d.application_type = some "unconditional"
        · rw [if_pos hdu]
          exact List.mem_cons_of_mem d (ih hmem)
        · rw [if_neg hdu]
          by_cases hdc : d.application_type = some "conditional"
          · rw [if_pos hdc]
            by_cases ha : assess (d.constraint.getD "") (d.source.getD "") = true
            · rw [if_pos ha]
              exact List.mem_cons_of_mem d (ih hmem)
            · rw [if_neg ha]
              exact ih hmem
          · rw [if_neg hdc]
            exact ih hmem

/-- C10: the composed stage-1 filters return an order-preserving
subsequence of the input; every kept record's category is one of the four
code-verifiable categories; every input record that is unconditional with a
code-verifiable category is kept unchanged; and every record whose
application_type is neither "unconditional" nor "conditional" (a missing
field included) is dropped. -/
theorem stage1_filters_characterization (assess : String → String → Bool)
    (cs : List Constraint) :
    (stage1_filtered assess cs).Sublist cs ∧
    (∀ c ∈ stage1_filtered assess cs,
      ∃ cat, c.category = some cat ∧ cat ∈ code_verifiable_categories) ∧
    (∀ c ∈ cs, c.application_type = some "unconditional" →
      (∃ cat, c.category = some cat ∧ cat ∈ code_verifiable_categories) →
      c ∈ stage1_filtered assess cs) ∧
    (∀ c ∈ cs, c.application_type ≠ some "unconditional" →
      c.application_type ≠ some "conditional" →
      c ∉ stage1_filtered assess cs) := by
  refine ⟨?_, ?_, ?_, ?_⟩
  · exact (filter_conditionals_sublist assess _).trans
      (List.filter_sublist cs)
  · intro c hmem
    have hcat := (filter_conditionals_sublist assess _).subset hmem
    rw [filter_code_verifiable_constraints, List.mem_filter] at hcat
    rcases hcat with ⟨_, hkeep⟩
    match hc : c.category with
    | some cat =>
        refine ⟨cat, rfl, ?_⟩
        rw [hc] at hkeep
        simpa using hkeep
    | Option.none =>
        rw [hc] at hkeep
        simp at hkeep
  · intro c hmem hu hcat
    apply filter_conditionals_keeps_unconditional assess _ c _ hu
    rw [filter_code_verifiable_constraints, List.mem_filter]
    refine ⟨hmem, ?_⟩
    rcases hcat with ⟨cat, hceq, hin⟩
    rw [hceq]
    simpa using hin
  · intro c _ hnu hnc hmem
    rcases filter_conditionals_mem_app_type assess _ c hmem with h | h
    · exact hnu h
    · exact hnc h

/-- C10 witness: a concrete list holding an unconditional code-verifiable
record, a conditional record (assessed not verifiable) and a record with a
missing application_type — the first is kept, the last is dropped. -/
theorem stage1_filters_characterization_witness :
    ⟨some "Answer in JSON.", some "unconditional",
     some "Output → Specific format constraint", some "r", some "s"⟩ ∈
      stage1_filtered (fun _ _ => false)
        [⟨some "Answer in JSON.", some "unconditional",
          some "Output → Specific format constraint", some "r", some "s"⟩,
         ⟨some "No emoji.", Option.none,
          some "Output → Lexical exclusion constraint", some "r", some "s"⟩] ∧
    ⟨some "No emoji.", Option.none,
     some "Output → Lexical exclusion constraint", some "r", some "s"⟩ ∉
      stage1_filtered (fun _ _ => false)
        [⟨some "Answer in JSON.", some "unconditional",
          some "Output → Specific format constraint", some "r", some "s"⟩,
         ⟨some "No emoji.", Option.none,
          some "Output → Lexical exclusion constraint", some "r", some "s"⟩] := by
  have h := stage1_filters_characterization (fun _ _ => false)
    [⟨some "Answer in JSON.", some "unconditional",
      some "Output → Specific format constraint", some "r", some "s"⟩,
     ⟨some "No emoji.", Option.none,
      some "Output → Lexical exclusion constraint", some "r", some "s"⟩]
  constructor
  · apply h.2.2.1
    · exact List.mem_cons_self _ _
    · rfl
    · exact ⟨"Output → Specific format constraint", rfl, by decide⟩
  · apply h.2.2.2
    · exact List.mem_cons_of_mem _ (List.mem_cons_self _ _)
    · decide
    · decide

mutual
inductive TreeNode where
  | mk (conditional : Bool) (parent_ok : Bool) (constraint_category : String)
      (constraint : String) (sourceField : Option String)
      (scopeField : Option String) (children : TreeNodeList) : TreeNode
inductive TreeNodeList where
  | nil : TreeNodeList
  | cons (head : TreeNode) (tail : TreeNodeList) : TreeNodeList
end

/-- How the Python f-string renders a bool field: True / False. -/
def pyBoolRepr (b : Bool) : String := if b then "True" else "False"

/-- How the Python f-string renders a field that may be None. -/
def pyOptRepr : Option String → String
  | Option.none => "None"
  | some s => s

/-- The conditional/unconditional tag chosen at line 118 of
stage2_tree_generation.py. -/
def condTag (b : Bool) : String := if b then "[COND]" else "[UNCOND]"

/-- The annotation part of one printed line (everything after the branch
glyph), exactly as the f-string builds it. -/
def lineAnnot : TreeNode → String
  | .mk c p cat con src scp _ =>
      condTag c ++ " " ++ "(parent_met=" ++ pyBoolRepr p ++ ") | " ++
        "constraint_category: " ++ cat ++ " | scope: " ++ pyOptRepr scp ++
        " | constraint: " ++ con ++ " | source: " ++ pyOptRepr src

mutual
/-- Shallow embedding of stage2_tree_generation.pretty_print_tree; the
lines printed, in the order printed.  `pre` is the prefix argument and
`is_last` the is_last argument (default true at the root). -/
def pretty_print_tree : TreeNode → String → Bool → List String
  | n@(.mk _ _ _ _ _ _ children), pre, is_last =>
      (pre ++ (if is_last then "└── " else "├── ") ++ lineAnnot n) ::
        printChildren children (pre ++ (if is_last then "    " else "│   "))
/-- The for-loop over children: idx == len(children) - 1 exactly on the
final element. -/
def printChildren : TreeNodeList → String → List String
  | .nil, _ => []
  | .cons c .nil, pre => pretty_print_tree c pre true
  | .cons c (.cons d tail), pre =>
      pretty_print_tree c pre false ++ printChildren (.cons d tail) pre
end

mutual
/-- Depth-first pre-order listing of the nodes of a tree. -/
def preorder : TreeNode → List TreeNode
  | n@(.mk _ _ _ _ _ _ children) => n :: preorderList children
def preorderList : TreeNodeList → List TreeNode
  | .nil => []
  | .cons c tail => preorder c ++ preorderList tail
end

mutual
/-- The pre-order traversal annotated with the prefix and is-last flag the
printer would use at each node: the specification-side decomposition of the
renderer (one entry per node; a node's last child flagged true, earlier
siblings false). -/
def nodeEntries : TreeNode → String → Bool → List (String × Bool × TreeNode)
  | n@(.mk _ _ _ _ _ _ children), pre, is_last =>
      (pre, is_last, n) ::
        entriesList children (pre ++ (if is_last then "    " else "│   "))
def entriesList : TreeNodeList → String → List (String × Bool × TreeNode)
  | .nil, _ => []
  | .cons c .nil, pre => nodeEntries c pre true
  | .cons c (.cons d tail), pre =>
      nodeEntries c pre false ++ entriesList (.cons d tail) pre
end

/-- Rendering of one annotated entry as one line. -/
def renderEntry (e : String × Bool × TreeNode) : String :=
  e.1 ++ (if e.2.1 then "└── " else "├── ") ++ lineAnnot e.2.2

mutual
theorem pretty_eq_entries : ∀ (t : TreeNode) (pre : String) (l : Bool),
    pretty_print_tree t pre l = (nodeEntries t pre l).map renderEntry
  | .mk c p cat con src scp children, pre, l => by
      rw [pretty_print_tree, nodeEntries, List.map_cons]
      rw [printChildren_eq_entries children (pre ++ (if l then "    " else "│   "))]
      rfl
theorem printChildren_eq_entries : ∀ (cs : TreeNodeList) (pre : String),
    printChildren cs pre = (entriesList cs pre).map renderEntry
  | .nil, pre => by
      rw [printChildren, entriesList]
      rfl
  | .cons c .nil, pre => by
      rw [printChildren, entriesList]
      exact pretty_eq_entries c pre true
  | .cons c (.cons d tail), pre => by
      rw [printChildren, entriesList, List.map_append]
      rw [pretty_eq_entries c pre false,
          printChildren_eq_entries (.cons d tail) pre]
end

mutual
theorem entries_proj_preorder : ∀ (t : TreeNode) (pre : String) (l : Bool),
    (nodeEntries t pre l).map (fun e => e.2.2) = preorder t
  | .mk c p cat con src scp children, pre, l => by
      rw [nodeEntries, preorder, List.map_cons]
      rw [entriesList_proj_preorder children (pre ++ (if l then "    " else "│   "))]
theorem entriesList_proj_preorder : ∀ (cs : TreeNodeList) (pre : String),
    (entriesList cs pre).map (fun e => e.2.2) = preorderList cs
  | .nil, pre => by
      rw [entriesList, preorderList]
      rfl
  | .cons c .nil, pre => by
      rw [entriesList]
      rw [entries_proj_preorder c pre true]
      rw [preorderList, preorderList]
      simp
  | .cons c (.cons d tail), pre => by
      rw [entriesList, preorderList, List.map_append]
      rw [entries_proj_preorder c pre false,
          entriesList_proj_preorder (.cons d tail) pre]
end

/-- The §6 exchange-format well-formedness check: leaves carry null source
and scope and empty children; internal nodes have exactly two children,
both well-formed. -/
def exchangeOK : TreeNode → Bool
  | .mk _ _ _ _ src scp .nil => src.isNone && scp.isNone
  | .mk _ _ _ _ _ _ (.cons a (.cons b .nil)) => exchangeOK a && exchangeOK b
  | .mk _ _ _ _ _ _ (.cons _ .nil) => false
  | .mk _ _ _ _ _ _ (.cons _ (.cons _ (.cons _ _))) => false

/-- C7: for trees in the exchange format, the printer emits exactly one
line per node, in depth-first pre-order; each line is the rendering of its
node's annotations (conditional tag, parent_ok, category, scope, constraint
text, source) behind a prefix and a branch glyph, and the glyph is "└── "
exactly on each node's last child (is-last flag true) and "├── " on earlier
siblings. -/
theorem pretty_print_tree_preorder_lines
    (t : TreeNode) (pre : String) (l : Bool)
    (_hwf : exchangeOK t = true) :
    pretty_print_tree t pre l = (nodeEntries t pre l).map renderEntry ∧
    (nodeEntries t pre l).map (fun e => e.2.2) = preorder t ∧
    (pretty_print_tree t pre l).length = (preorder t).length ∧
    (∀ e ∈ nodeEntries t pre l,
      renderEntry e =
        e.1 ++ (if e.2.1 then "└── " else "├── ") ++ lineAnnot e.2.2) := by
  refine ⟨pretty_eq_entries t pre l, entries_proj_preorder t pre l, ?_, ?_⟩
  · rw [pretty_eq_entries t pre l, List.length_map]
    rw [← entries_proj_preorder t pre l, List.length_map]
  · intro e _
    rfl

/-- C7 witness: a concrete exchange-format tree (one constraint node with a
yes leaf and a no leaf) printed from the root call. -/
theorem pretty_print_tree_preorder_lines_witness :
    pretty_print_tree
      (.mk false true "Output → Numerical constraint"
        "output must exceed 10 words" (some "Answer in more than 10 words.")
        (some "entire output")
        (.cons (.mk false true "result" "yes" Option.none Option.none .nil)
          (.cons (.mk false false "result" "no" Option.none Option.none .nil)
            .nil)))
      "" true =
      (nodeEntries
        (.mk false true "Output → Numerical constraint"
          "output must exceed 10 words" (some "Answer in more than 10 words.")
          (some "entire output")
          (.cons (.mk false true "result" "yes" Option.none Option.none .nil)
            (.cons (.mk false false "result" "no" Option.none Option.none .nil)
              .nil)))
        "" true).map renderEntry := by
  exact (pretty_print_tree_preorder_lines
    (.mk false true "Output → Numerical constraint"
      "output must exceed 10 words" (some "Answer in more than 10 words.")
      (some "entire output")
      (.cons (.mk false true "result" "yes" Option.none Option.none .nil)
        (.cons (.mk false false "result" "no" Option.none Option.none .nil)
          .nil)))
    "" true rfl).1

end ConstrainPrompt
